import Mathlib

/-!
# notesapp: the client-local state reconciliation of `src/App.js`

A shallow embedding of the reducer, of the event handlers of the `App`
component and of the subscription handler, followed by the properties
stated about them.

Modelling conventions.

* A JavaScript value that can sit in a property of a note or of the form is a
  `JSVal`: `undefined`, `null`, a boolean or a string.
* A plain object is a property list (`Props`); reading a property that is
  absent gives `undefined`, as in JavaScript.
* A note is an object together with its identity (`ref`): `===` and `!==`
  on notes compare identities, never contents.  Every object literal
  evaluated by the code (`{...x, name: ...}`) is a new object, so it takes
  the next unused identity from a counter that is passed along explicitly.
* `dispatch` calls are recorded in the order in which the code makes them
  and then folded through `reducer`; remote calls are recorded as
  `Request`s, and whether the remote call fails is an input of the handler.
-/

namespace NotesApp

/-! ## Values and objects -/

/-- JavaScript values that occur in the properties of notes and of the form. -/
inductive JSVal where
  | undefined
  | null
  | bool (b : Bool)
  | str (s : String)
  deriving DecidableEq, Repr

/-- JavaScript truthiness (`ToBoolean`): `undefined`, `null`, `false` and the
empty string are falsy. -/
def JSVal.truthy : JSVal → Bool
  | .undefined => false
  | .null => false
  | .bool b => b
  | .str s => decide (s ≠ "")

/-- The unary operator `!v`. -/
def jsNot (v : JSVal) : JSVal := .bool (!v.truthy)

/-- String conversion as done by a template literal. -/
def JSVal.toStr : JSVal → String
  | .undefined => "undefined"
  | .null => "null"
  | .bool true => "true"
  | .bool false => "false"
  | .str s => s

/-- The own properties of a plain object, in insertion order. -/
abbrev Props := List (String × JSVal)

/-- Property read `o[k]`; an absent property reads as `undefined`. -/
def getProp : Props → String → JSVal
  | [], _ => .undefined
  | (k', v) :: rest, k => if k' = k then v else getProp rest k

/-- The object `{...o, [k]: v}`: the properties of `o` with `k` set to `v`
(overwritten in place when present, added at the end otherwise). -/
def setProp : Props → String → JSVal → Props
  | [], k, v => [(k, v)]
  | (k', v') :: rest, k, v =>
      if k' = k then (k, v) :: rest else (k', v') :: setProp rest k v

/-- A note object: its identity and its properties. -/
structure Note where
  ref : Nat
  props : Props
  deriving DecidableEq, Repr

/-- Strict equality `x === y` of two note objects: same identity. -/
def Note.same (x y : Note) : Bool := x.ref == y.ref

/-- The array `xs.map((x) => ({...x, [k]: f(x)}))`: every element is replaced
by a new object, numbered from `next` on. -/
def mapSpread (k : String) (f : Note → JSVal) : Nat → List Note → List Note
  | _, [] => []
  | next, x :: xs => ⟨next, setProp x.props k (f x)⟩ :: mapSpread k f (next + 1) xs

/-! ## State and reducer -/

/-- The state held by `useReducer`. -/
structure State where
  notes : List Note
  loading : Bool
  error : Bool
  form : Props
  deriving DecidableEq, Repr

/-- The module constant `initialState`. -/
def initialState : State :=
  { notes := []
    loading := true
    error := false
    form := [("name", .str ""), ("description", .str "")] }

/-- Actions, by their `type`; `other` is any type the reducer does not list. -/
inductive Action where
  | SET_NOTES (notes : List Note)
  | ERROR
  | ADD_NOTE (note : Note)
  | RESET_FORM
  | SET_INPUT (name : String) (value : JSVal)
  | ADD_EXCLAMATION (item : Note)
  | other (type : String)
  deriving DecidableEq, Repr

/-- The function `reducer`.  `next` is the first unused object identity; the
result is the new state and the first identity still unused afterwards. -/
def reducer (next : Nat) (state : State) : Action → State × Nat
  | .SET_NOTES notes => ({ state with notes := notes, loading := false }, next)
  | .ERROR => ({ state with loading := false, error := true }, next)
  | .ADD_NOTE note => ({ state with notes := note :: state.notes }, next)
  | .RESET_FORM => ({ state with form := initialState.form }, next)
  | .SET_INPUT name value =>
      ({ state with form := setProp state.form name value }, next)
  | .ADD_EXCLAMATION item =>
      ({ state with
          notes := mapSpread "name"
            (fun x => if x.same item then .str ((getProp x.props "name").toStr ++ "!")
                      else getProp x.props "name")
            next state.notes },
        next + state.notes.length)
  | .other _ => (state, next)

/-- The store: the current state and the first unused object identity. -/
structure Store where
  state : State
  nextRef : Nat
  deriving DecidableEq, Repr

/-- One `dispatch(action)`. -/
def dispatch (w : Store) (action : Action) : Store :=
  let r := reducer w.nextRef w.state action
  { state := r.1, nextRef := r.2 }

/-- A run of `dispatch` calls, in order. -/
def dispatchAll (w : Store) (actions : List Action) : Store :=
  actions.foldl dispatch w

/-! ## Remote calls and handlers -/

/-- The GraphQL operations sent through `API.graphql`. -/
inductive Request where
  | listNotes
  | CreateNote (input : Note)
  | DeleteNote (id : JSVal)
  | UpdateNote (id : JSVal) (completed : JSVal)
  deriving DecidableEq, Repr

/-- What running a handler does, in order of occurrence within each kind. -/
structure Effects where
  dispatched : List Action
  requests : List Request
  alerts : List String
  errorLogs : Nat
  nextRef : Nat
  deriving DecidableEq, Repr

/-- The store after a handler has run: its dispatches applied in order. -/
def settle (w : Store) (e : Effects) : Store :=
  dispatchAll { state := w.state, nextRef := e.nextRef } e.dispatched

/-- The function `fetchNotes`.  `response` is the outcome of the awaited
query: the items on success, `none` when the call throws. -/
def fetchNotes (next : Nat) (response : Option (List Note)) : Effects :=
  match response with
  | some items =>
      { dispatched := [.SET_NOTES items], requests := [.listNotes], alerts := [],
        errorLogs := 0, nextRef := next }
  | none =>
      { dispatched := [.ERROR], requests := [.listNotes], alerts := [],
        errorLogs := 1, nextRef := next }

/-- The `next` handler of the `onCreateNote` subscription. -/
def subscriptionNext (CLIENT_ID : String) (next : Nat) (note : Note) : Effects :=
  if JSVal.str CLIENT_ID = getProp note.props "clientId" then
    { dispatched := [], requests := [], alerts := [], errorLogs := 0, nextRef := next }
  else
    { dispatched := [.ADD_NOTE note], requests := [], alerts := [], errorLogs := 0,
      nextRef := next }

/-- The function `createNote`.  `state` is the state of the current render,
`newId` the result of the `uuid()` call, `remoteFails` whether the awaited
mutation throws. -/
def createNote (CLIENT_ID newId : String) (next : Nat) (state : State)
    (remoteFails : Bool) : Effects :=
  let form := state.form
  if !(getProp form "name").truthy || !(getProp form "description").truthy then
    { dispatched := [], requests := [], alerts := ["please enter a name and description"],
      errorLogs := 0, nextRef := next }
  else
    let note : Note :=
      { ref := next
        props := setProp (setProp (setProp form "clientId" (.str CLIENT_ID))
                   "completed" (.bool false)) "id" (.str newId) }
    { dispatched := [.ADD_NOTE note, .RESET_FORM]
      requests := [.CreateNote note]
      alerts := []
      errorLogs := if remoteFails then 1 else 0
      nextRef := next + 1 }

/-- The function `deleteNote`. -/
def deleteNote (next : Nat) (state : State) (noteToDelete : Note)
    (remoteFails : Bool) : Effects :=
  { dispatched := [.SET_NOTES (state.notes.filter (fun x => !x.same noteToDelete))]
    requests := [.DeleteNote (getProp noteToDelete.props "id")]
    alerts := []
    errorLogs := if remoteFails then 1 else 0
    nextRef := next }

/-- The function `updateNote`. -/
def updateNote (next : Nat) (state : State) (noteToUpdate : Note)
    (remoteFails : Bool) : Effects :=
  { dispatched :=
      [.SET_NOTES (mapSpread "completed"
        (fun x => if x.same noteToUpdate then jsNot (getProp x.props "completed")
                  else getProp x.props "completed")
        next state.notes)]
    requests := [.UpdateNote (getProp noteToUpdate.props "id")
                  (jsNot (getProp noteToUpdate.props "completed"))]
    alerts := []
    errorLogs := if remoteFails then 1 else 0
    nextRef := next + state.notes.length }

/-- The function `addExclamation`. -/
def addExclamation (next : Nat) (item : Note) : Effects :=
  { dispatched := [.ADD_EXCLAMATION item], requests := [], alerts := [], errorLogs := 0,
    nextRef := next }

/-- The function `onChange`, for an event whose target has the given name and
value. -/
def onChange (next : Nat) (name value : String) : Effects :=
  { dispatched := [.SET_INPUT name (.str value)], requests := [], alerts := [],
    errorLogs := 0, nextRef := next }

/-! ## Vocabulary of the properties -/

/-- A state with two notes, used to instantiate the properties below. -/
def twoNotes : State :=
  { notes := [⟨0, [("id", .str "1"), ("name", .str "A"), ("completed", .bool false)]⟩,
              ⟨1, [("id", .str "2"), ("name", .str "B"), ("completed", .bool true)]⟩]
    loading := false
    error := false
    form := [("name", .str "X"), ("description", .str "Y")] }

/-- The first note of `twoNotes`. -/
def firstNote : Note :=
  ⟨0, [("id", .str "1"), ("name", .str "A"), ("completed", .bool false)]⟩

/-- The actions of a run of `onChange`-style inputs, one `SET_INPUT` per
(name, value) pair. -/
def setInputs (inputs : List (String × JSVal)) : List Action :=
  inputs.map (fun p => Action.SET_INPUT p.1 p.2)

/-- The value carried by the last input that names the field `k`, if any. -/
def lastInput (inputs : List (String × JSVal)) (k : String) : Option JSVal :=
  (inputs.reverse.find? (fun p => decide (p.1 = k))).map (fun p => p.2)

/-- Two objects that read the same at every property name. -/
def sameFields (o o' : Props) : Prop := ∀ k : String, getProp o' k = getProp o k

/-- Two objects that read the same at every property name except `field`. -/
def sameFieldsExcept (field : String) (o o' : Props) : Prop :=
  ∀ k : String, k ≠ field → getProp o' k = getProp o k

/-! ## Objects: reading after writing -/

theorem getProp_setProp_same (o : Props) (k : String) (v : JSVal) :
    getProp (setProp o k v) k = v := by
  induction o with
  | nil => simp [setProp, getProp]
  | cons p rest ih =>
    obtain ⟨k', v'⟩ := p
    by_cases h : k' = k
    · simp [setProp, getProp, h]
    · simp [setProp, getProp, h, ih]

theorem getProp_setProp_other (o : Props) (k j : String) (v : JSVal) (h : j ≠ k) :
    getProp (setProp o k v) j = getProp o j := by
  induction o with
  | nil => simp [setProp, getProp, Ne.symm h]
  | cons p rest ih =>
    obtain ⟨k', v'⟩ := p
    by_cases hk : k' = k
    · subst hk
      simp [setProp, getProp, Ne.symm h]
    · by_cases hj : k' = j
      · subst hj
        simp [setProp, getProp, hk]
      · simp [setProp, getProp, hk, hj, ih]

theorem getProp_setProp_self (o : Props) (k j : String) :
    getProp (setProp o k (getProp o k)) j = getProp o j := by
  by_cases h : j = k
  · subst h; exact getProp_setProp_same o j _
  · exact getProp_setProp_other o k j _ h

/-! ## Arrays: `map` with a spread -/

theorem mapSpread_length (k : String) (f : Note → JSVal) (next : Nat) (xs : List Note) :
    (mapSpread k f next xs).length = xs.length := by
  induction xs generalizing next with
  | nil => rfl
  | cons x xs ih => simp [mapSpread, ih]

theorem mapSpread_getElem? (k : String) (f : Note → JSVal) (next : Nat) (xs : List Note)
    (i : Nat) :
    (mapSpread k f next xs)[i]? =
      (xs[i]?).map (fun x => ({ ref := next + i, props := setProp x.props k (f x) } : Note)) := by
  induction xs generalizing next i with
  | nil => simp [mapSpread]
  | cons x xs ih =>
    cases i with
    | zero => simp [mapSpread]
    | succ i =>
      simp only [mapSpread, List.getElem?_cons_succ, ih]
      congr 1; funext y; congr 1; omega

/-! ## Runs of `SET_INPUT` -/

theorem dispatchAll_append (w : Store) (xs ys : List Action) :
    dispatchAll w (xs ++ ys) = dispatchAll (dispatchAll w xs) ys := by
  simp [dispatchAll, List.foldl_append]

theorem setInputs_append (xs ys : List (String × JSVal)) :
    setInputs (xs ++ ys) = setInputs xs ++ setInputs ys := by
  simp [setInputs]

theorem lastInput_append_singleton (xs : List (String × JSVal)) (p : String × JSVal)
    (k : String) :
    lastInput (xs ++ [p]) k = if p.1 = k then some p.2 else lastInput xs k := by
  by_cases h : p.1 = k <;> simp [lastInput, List.find?_cons, h]

/-! ## The reducer -/

/-- C1: `reducer(s, ADD_NOTE n)` has as notes `n` followed by the notes of `s`
in their order, so its first note is `n` and it has one note more; `loading`,
`error` and `form` are those of `s`. -/
theorem add_note_prepends (next : Nat) (s : State) (n : Note) :
    (reducer next s (.ADD_NOTE n)).1.notes = n :: s.notes ∧
    (reducer next s (.ADD_NOTE n)).1.notes.head? = some n ∧
    (reducer next s (.ADD_NOTE n)).1.notes.length = s.notes.length + 1 ∧
    (reducer next s (.ADD_NOTE n)).1.loading = s.loading ∧
    (reducer next s (.ADD_NOTE n)).1.error = s.error ∧
    (reducer next s (.ADD_NOTE n)).1.form = s.form := by
  simp [reducer]

/-- C2: after any finite run of `SET_INPUT` actions applied in order, a form
field named by some action reads the value of the last action naming it, a
field named by none reads what it read in `s`, and `notes`, `loading` and
`error` are those of `s`. -/
theorem set_input_last_wins (next : Nat) (s : State) (inputs : List (String × JSVal)) :
    (∀ k : String, getProp (dispatchAll ⟨s, next⟩ (setInputs inputs)).state.form k =
        (lastInput inputs k).getD (getProp s.form k)) ∧
    (dispatchAll ⟨s, next⟩ (setInputs inputs)).state.notes = s.notes ∧
    (dispatchAll ⟨s, next⟩ (setInputs inputs)).state.loading = s.loading ∧
    (dispatchAll ⟨s, next⟩ (setInputs inputs)).state.error = s.error := by
  induction inputs using List.reverseRecOn with
  | nil => simp [setInputs, dispatchAll, lastInput]
  | append_singleton xs p ih =>
    obtain ⟨hform, hnotes, hload, herr⟩ := ih
    rw [setInputs_append, dispatchAll_append]
    refine ⟨?_, ?_, ?_, ?_⟩
    · intro k
      rw [lastInput_append_singleton]
      by_cases h : p.1 = k
      · subst h
        simp [setInputs, dispatchAll, dispatch, reducer, getProp_setProp_same]
      · have h' : k ≠ p.1 := fun e => h e.symm
        simp [setInputs, dispatchAll, dispatch, reducer, h,
          getProp_setProp_other _ _ _ _ h'] at hform ⊢
        exact hform k
    · simpa [setInputs, dispatchAll, dispatch, reducer] using hnotes
    · simpa [setInputs, dispatchAll, dispatch, reducer] using hload
    · simpa [setInputs, dispatchAll, dispatch, reducer] using herr

/-- C3: when `target` is the note at position `i` of `s.notes` and no other
position holds an object identical to it, `reducer(s, ADD_EXCLAMATION target)`
keeps the number and order of the notes; the note at position `i` has as name
the old name followed by "!" and reads as before at every other field; the note
at any other position reads as before at every field; `loading`, `error` and
`form` are those of `s`. -/
theorem add_exclamation_marks_target (next : Nat) (s : State) (target : Note) (i : Nat)
    (hi : s.notes[i]? = some target)
    (huniq : ∀ (j : Nat) (x : Note), j ≠ i → s.notes[j]? = some x → x.ref ≠ target.ref) :
    (reducer next s (.ADD_EXCLAMATION target)).1.notes.length = s.notes.length ∧
    (∃ y : Note, (reducer next s (.ADD_EXCLAMATION target)).1.notes[i]? = some y ∧
      getProp y.props "name" = .str ((getProp target.props "name").toStr ++ "!") ∧
      (∀ nm : String, getProp target.props "name" = .str nm →
        getProp y.props "name" = .str (nm ++ "!")) ∧
      sameFieldsExcept "name" target.props y.props) ∧
    (∀ (j : Nat) (x : Note), j ≠ i → s.notes[j]? = some x →
      ∃ y : Note, (reducer next s (.ADD_EXCLAMATION target)).1.notes[j]? = some y ∧
        sameFields x.props y.props) ∧
    (reducer next s (.ADD_EXCLAMATION target)).1.loading = s.loading ∧
    (reducer next s (.ADD_EXCLAMATION target)).1.error = s.error ∧
    (reducer next s (.ADD_EXCLAMATION target)).1.form = s.form := by
  refine ⟨by simp [reducer, mapSpread_length], ?_, ?_, rfl, rfl, rfl⟩
  · refine ⟨_, by simp only [reducer, mapSpread_getElem?, hi, Option.map_some']; rfl, ?_, ?_, ?_⟩
    · simp [Note.same, getProp_setProp_same]
    · intro nm hnm
      simp [Note.same, getProp_setProp_same, hnm, JSVal.toStr]
    · intro k hk
      exact getProp_setProp_other _ _ _ _ hk
  · intro j x hj hx
    refine ⟨_, by simp only [reducer, mapSpread_getElem?, hx, Option.map_some']; rfl, ?_⟩
    intro k
    have hne : x.same target = false := by simpa [Note.same] using huniq j x hj hx
    simp only [hne]
    exact getProp_setProp_self _ _ _

/-- C3 at `twoNotes` with its first note as target. -/
theorem add_exclamation_marks_target_witness :
    twoNotes.notes[0]? = some firstNote ∧
    (reducer 2 twoNotes (.ADD_EXCLAMATION firstNote)).1.notes.length = twoNotes.notes.length ∧
    (∃ y : Note, (reducer 2 twoNotes (.ADD_EXCLAMATION firstNote)).1.notes[0]? = some y ∧
      getProp y.props "name" = .str "A!") :=
  have h := add_exclamation_marks_target 2 twoNotes firstNote 0 rfl (by
    intro j x hj hx
    match j, hj, hx with
    | 1, _, hx =>
      have : x = ⟨1, [("id", .str "2"), ("name", .str "B"), ("completed", .bool true)]⟩ := by
        simpa [twoNotes] using hx.symm
      subst this
      decide
    | j + 2, _, hx => simp [twoNotes] at hx)
  ⟨rfl, h.1, h.2.1.imp fun _ hy => ⟨hy.1, hy.2.2.1 "A" rfl⟩⟩

/-! ## The subscription handler -/

/-- C4: the `next` handler of the `onCreateNote` subscription dispatches
nothing, leaving the state as it is, when the pushed note has the session's
`CLIENT_ID` as `clientId`; otherwise it dispatches exactly `ADD_NOTE` with that
note, and the state becomes `s` with the note put in front of its notes. -/
theorem subscription_echo_suppression (CLIENT_ID : String) (next : Nat) (s : State)
    (note : Note) :
    (getProp note.props "clientId" = .str CLIENT_ID →
      (subscriptionNext CLIENT_ID next note).dispatched = [] ∧
      (settle ⟨s, next⟩ (subscriptionNext CLIENT_ID next note)).state = s) ∧
    (getProp note.props "clientId" ≠ .str CLIENT_ID →
      (subscriptionNext CLIENT_ID next note).dispatched = [.ADD_NOTE note] ∧
      (settle ⟨s, next⟩ (subscriptionNext CLIENT_ID next note)).state =
        { s with notes := note :: s.notes }) := by
  constructor
  · intro h
    simp [subscriptionNext, h, settle, dispatchAll]
  · intro h
    have h' : ¬ JSVal.str CLIENT_ID = getProp note.props "clientId" := fun e => h e.symm
    simp [subscriptionNext, h', settle, dispatchAll, dispatch, reducer]

/-- C4 at the session "me": a note of its own is dropped, a note of the
session "other" is added in front. -/
theorem subscription_echo_suppression_witness :
    (settle ⟨twoNotes, 2⟩ (subscriptionNext "me" 2 ⟨7, [("clientId", .str "me")]⟩)).state =
      twoNotes ∧
    (settle ⟨twoNotes, 2⟩ (subscriptionNext "me" 2 ⟨7, [("clientId", .str "other")]⟩)).state =
      { twoNotes with notes := ⟨7, [("clientId", .str "other")]⟩ :: twoNotes.notes } :=
  ⟨((subscription_echo_suppression "me" 2 twoNotes ⟨7, [("clientId", .str "me")]⟩).1
      (by decide)).2,
   ((subscription_echo_suppression "me" 2 twoNotes ⟨7, [("clientId", .str "other")]⟩).2
      (by decide)).2⟩

/-! ## Loading the notes -/

/-- C6: `reducer(s, SET_NOTES ns)` has `ns` as notes and `loading` false, with
`error` and `form` those of `s`; from `initialState`, a `fetchNotes` whose query
resolves with the items `ns` gives notes `ns`, `loading` false and `error`
false. -/
theorem set_notes_replaces (next : Nat) (s : State) (ns : List Note) :
    (reducer next s (.SET_NOTES ns)).1.notes = ns ∧
    (reducer next s (.SET_NOTES ns)).1.loading = false ∧
    (reducer next s (.SET_NOTES ns)).1.error = s.error ∧
    (reducer next s (.SET_NOTES ns)).1.form = s.form ∧
    initialState.notes = [] ∧ initialState.loading = true ∧ initialState.error = false ∧
    (fetchNotes next (some ns)).dispatched = [.SET_NOTES ns] ∧
    (settle ⟨initialState, next⟩ (fetchNotes next (some ns))).state =
      { notes := ns, loading := false, error := false, form := initialState.form } := by
  simp [reducer, fetchNotes, settle, dispatchAll, dispatch, initialState]

/-- C7: `reducer(s, ERROR)` has `loading` false and `error` true whatever they
were in `s`, with `notes` and `form` those of `s`; a `fetchNotes` whose query
fails dispatches exactly `ERROR` and so ends in that state. -/
theorem error_sets_flags (next : Nat) (s : State) :
    (reducer next s .ERROR).1.loading = false ∧
    (reducer next s .ERROR).1.error = true ∧
    (reducer next s .ERROR).1.notes = s.notes ∧
    (reducer next s .ERROR).1.form = s.form ∧
    (fetchNotes next none).dispatched = [.ERROR] ∧
    (settle ⟨s, next⟩ (fetchNotes next none)).state = (reducer next s .ERROR).1 := by
  simp [reducer, fetchNotes, settle, dispatchAll, dispatch]

/-! ## Creating a note -/

/-- C5: when the form's `name` is empty or its `description` is empty,
`createNote` dispatches nothing and sends no request (it only raises the
prompt), so the state afterwards is the state before. -/
theorem create_note_blocked (CLIENT_ID newId : String) (next : Nat) (s : State)
    (remoteFails : Bool)
    (h : getProp s.form "name" = .str "" ∨ getProp s.form "description" = .str "") :
    (createNote CLIENT_ID newId next s remoteFails).dispatched = [] ∧
    (createNote CLIENT_ID newId next s remoteFails).requests = [] ∧
    (createNote CLIENT_ID newId next s remoteFails).alerts =
      ["please enter a name and description"] ∧
    (settle ⟨s, next⟩ (createNote CLIENT_ID newId next s remoteFails)).state = s := by
  have hblocked : (!(getProp s.form "name").truthy || !(getProp s.form "description").truthy)
      = true := by
    rcases h with h | h <;> simp [h, JSVal.truthy]
  simp [createNote, hblocked, settle, dispatchAll]

/-- C5 at `initialState`, whose form is empty. -/
theorem create_note_blocked_witness :
    (getProp initialState.form "name" = .str "" ∨
      getProp initialState.form "description" = .str "") ∧
    (createNote "me" "id-1" 0 initialState false).dispatched = [] ∧
    (settle ⟨initialState, 0⟩ (createNote "me" "id-1" 0 initialState false)).state =
      initialState :=
  have h := create_note_blocked "me" "id-1" 0 initialState false (Or.inl (by decide))
  ⟨Or.inl (by decide), h.1, h.2.2.2⟩

/-- C10: when the form's `name` and `description` are both non-empty strings,
`createNote` puts a new note in front of the notes of `s` and resets the form
to empty `name` and `description`; the new note has the form's `name` and
`description`, `completed` false and the session's `CLIENT_ID` as `clientId`;
the create request carries that same note; and the local state is the same
whether or not the request fails. -/
theorem create_note_optimistic (CLIENT_ID newId : String) (next : Nat) (s : State)
    (a b : String)
    (hname : getProp s.form "name" = .str a) (ha : a ≠ "")
    (hdesc : getProp s.form "description" = .str b) (hb : b ≠ "") :
    ∃ note : Note,
      getProp note.props "name" = .str a ∧
      getProp note.props "description" = .str b ∧
      getProp note.props "completed" = .bool false ∧
      getProp note.props "clientId" = .str CLIENT_ID ∧
      getProp initialState.form "name" = .str "" ∧
      getProp initialState.form "description" = .str "" ∧
      ∀ remoteFails : Bool,
        (settle ⟨s, next⟩ (createNote CLIENT_ID newId next s remoteFails)).state =
          { s with notes := note :: s.notes, form := initialState.form } ∧
        (createNote CLIENT_ID newId next s remoteFails).requests = [.CreateNote note] := by
  have hgo : (!(getProp s.form "name").truthy || !(getProp s.form "description").truthy)
      = false := by
    simp [hname, hdesc, JSVal.truthy, ha, hb]
  refine ⟨{ ref := next
            props := setProp (setProp (setProp s.form "clientId" (.str CLIENT_ID))
              "completed" (.bool false)) "id" (.str newId) }, ?_, ?_, ?_, ?_, ?_, ?_, ?_⟩
  · rw [getProp_setProp_other _ _ _ _ (by decide), getProp_setProp_other _ _ _ _ (by decide),
      getProp_setProp_other _ _ _ _ (by decide), hname]
  · rw [getProp_setProp_other _ _ _ _ (by decide), getProp_setProp_other _ _ _ _ (by decide),
      getProp_setProp_other _ _ _ _ (by decide), hdesc]
  · rw [getProp_setProp_other _ _ _ _ (by decide), getProp_setProp_same]
  · rw [getProp_setProp_other _ _ _ _ (by decide), getProp_setProp_other _ _ _ _ (by decide),
      getProp_setProp_same]
  · decide
  · decide
  · intro remoteFails
    simp [createNote, hgo, settle, dispatchAll, dispatch, reducer]

/-- C10 at `twoNotes`, whose form holds "X" and "Y". -/
theorem create_note_optimistic_witness :
    ∃ note : Note,
      getProp note.props "name" = .str "X" ∧
      getProp note.props "description" = .str "Y" ∧
      getProp note.props "completed" = .bool false ∧
      getProp note.props "clientId" = .str "me" ∧
      (settle ⟨twoNotes, 2⟩ (createNote "me" "id-1" 2 twoNotes true)).state =
        { twoNotes with notes := note :: twoNotes.notes, form := initialState.form } :=
  (create_note_optimistic "me" "id-1" 2 twoNotes "X" "Y" (by decide) (by decide)
      (by decide) (by decide)).imp
    fun _ h => ⟨h.1, h.2.1, h.2.2.1, h.2.2.2.1, (h.2.2.2.2.2.2 true).1⟩

/-! ## Updating and deleting a note -/

/-- C8: when `n` is the note at position `i` of `s.notes` and no other position
holds an object identical to it, `updateNote(n)` keeps the number and order of
the notes; the note at position `i` has as `completed` the negation of
`n.completed` and reads as before at every other field; the note at any other
position reads as before at every field; and the update request carries `n.id`
and, as `completed`, the new local value of that note. -/
theorem update_note_toggles (next : Nat) (s : State) (n : Note) (i : Nat)
    (remoteFails : Bool)
    (hi : s.notes[i]? = some n)
    (huniq : ∀ (j : Nat) (x : Note), j ≠ i → s.notes[j]? = some x → x.ref ≠ n.ref) :
    (settle ⟨s, next⟩ (updateNote next s n remoteFails)).state.notes.length
      = s.notes.length ∧
    (∃ y : Note,
      (settle ⟨s, next⟩ (updateNote next s n remoteFails)).state.notes[i]? = some y ∧
      getProp y.props "completed" = jsNot (getProp n.props "completed") ∧
      (∀ c : Bool, getProp n.props "completed" = .bool c →
        getProp y.props "completed" = .bool (!c)) ∧
      sameFieldsExcept "completed" n.props y.props ∧
      (updateNote next s n remoteFails).requests =
        [.UpdateNote (getProp n.props "id") (getProp y.props "completed")]) ∧
    (∀ (j : Nat) (x : Note), j ≠ i → s.notes[j]? = some x →
      ∃ y : Note,
        (settle ⟨s, next⟩ (updateNote next s n remoteFails)).state.notes[j]? = some y ∧
        sameFields x.props y.props) := by
  have hnotes : (settle ⟨s, next⟩ (updateNote next s n remoteFails)).state.notes =
      mapSpread "completed"
        (fun x => if x.same n then jsNot (getProp x.props "completed")
                  else getProp x.props "completed")
        next s.notes := by
    simp [settle, updateNote, dispatchAll, dispatch, reducer]
  rw [hnotes]
  refine ⟨mapSpread_length _ _ _ _, ?_, ?_⟩
  · refine ⟨_, by simp only [mapSpread_getElem?, hi, Option.map_some']; rfl, ?_, ?_, ?_, ?_⟩
    · simp [Note.same, getProp_setProp_same]
    · intro c hc
      simp [Note.same, getProp_setProp_same, hc, jsNot, JSVal.truthy]
    · intro k hk
      exact getProp_setProp_other _ _ _ _ hk
    · simp [updateNote, Note.same, getProp_setProp_same]
  · intro j x hj hx
    refine ⟨_, by simp only [mapSpread_getElem?, hx, Option.map_some']; rfl, ?_⟩
    intro k
    have hne : x.same n = false := by simpa [Note.same] using huniq j x hj hx
    simp only [hne]
    exact getProp_setProp_self _ _ _

/-- C8 at `twoNotes` with its first note, which is not completed. -/
theorem update_note_toggles_witness :
    twoNotes.notes[0]? = some firstNote ∧
    (∃ y : Note,
      (settle ⟨twoNotes, 2⟩ (updateNote 2 twoNotes firstNote false)).state.notes[0]? = some y ∧
      getProp y.props "completed" = .bool true ∧
      (updateNote 2 twoNotes firstNote false).requests =
        [.UpdateNote (.str "1") (getProp y.props "completed")]) :=
  have h := update_note_toggles 2 twoNotes firstNote 0 false rfl (by
    intro j x hj hx
    match j, hj, hx with
    | 1, _, hx =>
      have : x = ⟨1, [("id", .str "2"), ("name", .str "B"), ("completed", .bool true)]⟩ := by
        simpa [twoNotes] using hx.symm
      subst this
      decide
    | j + 2, _, hx => simp [twoNotes] at hx)
  ⟨rfl, h.2.1.imp fun _ hy => ⟨hy.1, hy.2.2.1 false rfl, hy.2.2.2.2⟩⟩

/-- C9: `deleteNote(n)` leaves as notes those of `s` that are not the object
`n`, unchanged and in their order, so that `n` no longer occurs; the delete
request carries `n.id`; the handler dispatches this one `SET_NOTES` and nothing
else whether or not the request fails, so a failure undoes nothing. -/
theorem delete_note_removes (next : Nat) (s : State) (n : Note) (remoteFails : Bool) :
    (settle ⟨s, next⟩ (deleteNote next s n remoteFails)).state.notes =
      s.notes.filter (fun x => decide (x.ref ≠ n.ref)) ∧
    (∀ x ∈ (settle ⟨s, next⟩ (deleteNote next s n remoteFails)).state.notes,
      x.ref ≠ n.ref) ∧
    (settle ⟨s, next⟩ (deleteNote next s n remoteFails)).state.notes.Sublist s.notes ∧
    (deleteNote next s n remoteFails).requests = [.DeleteNote (getProp n.props "id")] ∧
    (deleteNote next s n remoteFails).dispatched =
      [.SET_NOTES (s.notes.filter (fun x => decide (x.ref ≠ n.ref)))] ∧
    (settle ⟨s, next⟩ (deleteNote next s n remoteFails)).state =
      (settle ⟨s, next⟩ (deleteNote next s n (!remoteFails))).state := by
  have hfilter : s.notes.filter (fun x => !x.same n) =
      s.notes.filter (fun x => decide (x.ref ≠ n.ref)) := by
    congr 1; funext x
    by_cases h : x.ref = n.ref <;> simp [Note.same, h]
  have hnotes : (settle ⟨s, next⟩ (deleteNote next s n remoteFails)).state.notes =
      s.notes.filter (fun x => decide (x.ref ≠ n.ref)) := by
    simp [settle, deleteNote, dispatchAll, dispatch, reducer, hfilter]
  refine ⟨hnotes, ?_, ?_, rfl, ?_, ?_⟩
  · intro x hx
    rw [hnotes] at hx
    simpa using (List.mem_filter.mp hx).2
  · rw [hnotes]
    exact List.filter_sublist _
  · simp [deleteNote, hfilter]
  · simp [settle, deleteNote, dispatchAll, dispatch, reducer]

/-- C9 at `twoNotes` with its first note: only the second note is left, and a
failing request changes nothing. -/
theorem delete_note_removes_witness :
    (settle ⟨twoNotes, 2⟩ (deleteNote 2 twoNotes firstNote true)).state.notes =
      [⟨1, [("id", .str "2"), ("name", .str "B"), ("completed", .bool true)]⟩] ∧
    (deleteNote 2 twoNotes firstNote true).requests = [.DeleteNote (.str "1")] :=
  have h := delete_note_removes 2 twoNotes firstNote true
  ⟨h.1.trans (by decide), h.2.2.2.1⟩

end NotesApp
